import Mathlib

/-!
Verification development for the container-desktop-entries repository.

The core of the program (src/server.rs, src/container_type.rs, src/client.rs) is
shallowly embedded here:

* `ContainerType` and its `format_*` string builders are translated directly from
  src/container_type.rs.
* The two regular expressions the program ever builds are the literal patterns
  `(Exec=\s?)(.*)` and `(Name=\s?)(.*)` (or the empty pattern for the Unknown
  kind).  `regexReplaceAll` gives the semantics of Rust's
  `Regex::replace_all` specialised to exactly these pattern shapes: a match is a
  leftmost occurrence of the literal key (`Exec=` / `Name=`), an optional single
  whitespace character (`\s?`, greedy; note `\s` also matches a newline), and then
  the maximal run of non-newline characters (`.*`); matches are non-overlapping and
  the replacement string is interpreted as a Rust replacement template
  (`$$`, `$name`, and brace-delimited group references).  The empty pattern matches
  the empty string at every position.  Whitespace is modelled by the ASCII part of
  the Unicode white-space class, which is all the program's inputs exercise.
* `lookup_icon` is translated from src/server.rs.  A filesystem path is modelled
  as its list of components (`List String`); the recursive directory walk is
  modelled by the list of entries it yields, in walk order (WalkDir yields both
  files and directories).  `file_stem`/`extension` follow Rust `Path` semantics
  (split at the last dot of the file name, a dot in leading position does not
  start an extension).  Rust's `Iterator::max_by_key` returns the LAST maximal
  element on ties, which `maxByKeyLast` reproduces.  The grandparent-directory
  name is the third-from-last path component; for the degenerate paths on which
  the Rust code would panic (`unwrap` of a missing file name) the model scores 0.
* The session registrar (`server` / `set_up_client` in src/server.rs) is modelled
  as the trace of externally visible calls it issues (`Event`): shell commands,
  workspace directory creation/removal, and D-Bus registration calls.  The
  external collaborators are parameters: `decode` stands for
  `DesktopEntry::decode` of the freedesktop_desktop_entry crate, a
  `ContainerEnv` records what the container-side commands return (captured
  `XDG_DATA_DIRS` output, the harvested application files and the icon/pixmap
  walk listings), and `connOk` records whether the session-bus connection and
  proxy creation at the publishing step succeed (`Connection::session()` /
  `DesktopEntryProxy::new`), the only fallible early-return points of
  `set_up_client` (the shell helpers in server.rs panic rather than return
  errors).  Registration calls are traced as issued; the daemon always accepts
  (push failures are logged and change no control flow relevant to the claims).
* The daemon's own store is not part of this repository's src; `RegistryState`
  and `retract_owner` model it from the spec for the retraction-idempotence part
  of claim C1.
-/

namespace ContainerDesktopEntries

/-- Container runtime kinds, from src/container_type.rs. -/
inductive ContainerType where
  | Podman
  | Docker
  | Toolbox
  | Unknown
deriving DecidableEq

/-- src/container_type.rs `not_supported`: matches Docker, Podman and Unknown. -/
def ContainerType.not_supported : ContainerType → Bool
  | .Docker => true
  | .Podman => true
  | .Unknown => true
  | .Toolbox => false

/-- src/container_type.rs `format_copy`. -/
def ContainerType.format_copy (t : ContainerType) (container_name from_ to_ : String) : String :=
  match t with
  | .Toolbox => "podman container cp " ++ container_name ++ ":" ++ from_ ++ "/. " ++ to_ ++ "/"
  | _ => ""

/-- src/container_type.rs `format_exec`. -/
def ContainerType.format_exec (t : ContainerType) (container_name command : String) : String :=
  match t with
  | .Toolbox => "toolbox run -c " ++ container_name ++ " " ++ command
  | _ => ""

/-- src/container_type.rs `format_exec_regex_pattern`. -/
def ContainerType.format_exec_regex_pattern (t : ContainerType) : String :=
  match t with
  | .Toolbox => "(Exec=\\s?)(.*)"
  | .Podman => "(Exec=\\s?)(.*)"
  | .Docker => "(Exec=\\s?)(.*)"
  | .Unknown => ""

/-- src/container_type.rs `format_desktop_exec`. -/
def ContainerType.format_desktop_exec (t : ContainerType) (container_name : String) : String :=
  match t with
  | .Toolbox => "Exec=toolbox run -c " ++ container_name ++ " ${2}"
  | .Podman =>
    "Exec=sh -c \x27podman container start " ++ container_name ++
      " && podman container exec " ++ container_name ++ " ${2}\x27"
  | _ => ""

/-- src/container_type.rs `format_name_regex_pattern`. -/
def ContainerType.format_name_regex_pattern (t : ContainerType) : String :=
  match t with
  | .Toolbox => "(Name=\\s?)(.*)"
  | .Podman => "(Name=\\s?)(.*)"
  | .Docker => "(Name=\\s?)(.*)"
  | .Unknown => ""

/-- src/container_type.rs `format_desktop_name`. -/
def ContainerType.format_desktop_name (t : ContainerType) (container_name : String) : String :=
  match t with
  | .Toolbox => "Name=${2} (" ++ container_name ++ ")"
  | _ => ""

/-- src/container_type.rs `format_start`. -/
def ContainerType.format_start (t : ContainerType) (container_name : String) : String :=
  match t with
  | .Toolbox => "toolbox run -c " ++ container_name ++ " echo \x27Started\x27"
  | _ => ""

/-- Rust regex `\s` (ASCII portion of the Unicode white-space class). -/
def isWs (c : Char) : Bool :=
  c == ' ' || c == '\t' || c == '\n' || c == '\x0b' || c == '\x0c' || c == '\r'

/-- A character allowed in a `$name` capture reference of a Rust replacement
template (`[0-9A-Za-z_]`). -/
def isGroupNameChar (c : Char) : Bool := c.isAlphanum || c == '_'

/-- Value of a capture-group reference: group 1 is the matched key (plus the
optional whitespace), group 2 the rest of the line, group 0 the whole match;
an unknown group name expands to nothing, as in the regex crate. -/
def groupVal (g1 g2 nm : List Char) : List Char :=
  if nm = ['0'] then g1 ++ g2 else if nm = ['1'] then g1 else if nm = ['2'] then g2 else []

/-- Split a list at the first closing brace, dropping it. -/
def braceSplit : List Char → Option (List Char × List Char)
  | [] => none
  | c :: cs =>
    if c = '\x7d' then some ([], cs)
    else match braceSplit cs with
      | some (a, b) => some (c :: a, b)
      | none => none

/-- Expansion of a Rust replacement template (regex crate semantics: `$$` is a
literal dollar, `$\x7bname\x7d` and `$name` are capture references).  Fuelled by the
template length; every step consumes at least one template character, so the
fuel used by `expandTemplate` never runs out. -/
def expandTGo (g1 g2 : List Char) : Nat → List Char → List Char
  | 0, rest => rest
  | _ + 1, [] => []
  | fuel + 1, '$' :: '$' :: rest => '$' :: expandTGo g1 g2 fuel rest
  | fuel + 1, '$' :: '\x7b' :: rest =>
    (match braceSplit rest with
     | some (nm, rest2) => groupVal g1 g2 nm ++ expandTGo g1 g2 fuel rest2
     | none => '$' :: '\x7b' :: expandTGo g1 g2 fuel rest)
  | fuel + 1, '$' :: rest =>
    (if (rest.takeWhile isGroupNameChar) = [] then '$' :: expandTGo g1 g2 fuel rest
     else
       groupVal g1 g2 (rest.takeWhile isGroupNameChar) ++
         expandTGo g1 g2 fuel (rest.drop (rest.takeWhile isGroupNameChar).length))
  | fuel + 1, c :: rest => c :: expandTGo g1 g2 fuel rest

/-- Expand a replacement template with the two capture groups of the pattern. -/
def expandTemplate (tmpl g1 g2 : List Char) : List Char := expandTGo g1 g2 (tmpl.length + 1) tmpl

/-- Leftmost occurrence of `key` in a string: `some (before, after)` with
`s = before ++ key ++ after`, scanning left to right. -/
def splitOnKey (key : List Char) : List Char → Option (List Char × List Char)
  | [] => if key = [] then some ([], []) else none
  | c :: cs =>
    if key.isPrefixOf (c :: cs) then some ([], (c :: cs).drop key.length)
    else match splitOnKey key cs with
      | some (b, a) => some (c :: b, a)
      | none => none

/-- Negation of the newline test used for `.*` (which does not match a newline). -/
def notNl (c : Char) : Bool := c != '\n'

/-- One `replace_all` pass for a pattern of the shape `(KEY\s?)(.*)`: repeatedly
find the leftmost occurrence of the key, let `\s?` greedily take one following
whitespace character and `.*` the maximal run of non-newline characters, replace
the whole match by the expanded template and continue after it.  Fuelled; each
iteration consumes at least the (non-empty) key, so fuel `s.length + 1` in
`replaceAllKey` always suffices. -/
def replaceAllKeyGo (key tmpl : List Char) : Nat → List Char → List Char
  | 0, s => s
  | fuel + 1, s =>
    match splitOnKey key s with
    | none => s
    | some (before, after) =>
      match after with
      | [] => before ++ expandTemplate tmpl key [] ++ replaceAllKeyGo key tmpl fuel []
      | c :: rest =>
        if isWs c then
          before ++ expandTemplate tmpl (key ++ [c]) (rest.takeWhile notNl)
            ++ replaceAllKeyGo key tmpl fuel (rest.dropWhile notNl)
        else
          before ++ expandTemplate tmpl key ((c :: rest).takeWhile notNl)
            ++ replaceAllKeyGo key tmpl fuel ((c :: rest).dropWhile notNl)

/-- `Regex::replace_all` for a `(KEY\s?)(.*)` pattern. -/
def replaceAllKey (key tmpl s : List Char) : List Char := replaceAllKeyGo key tmpl (s.length + 1) s

/-- `Regex::replace_all` for the empty pattern: an empty match at every position,
each replaced by the template expanded with empty groups. -/
def replaceAllEmptyPattern (tmpl : List Char) : List Char → List Char
  | [] => expandTemplate tmpl [] []
  | c :: rest => expandTemplate tmpl [] [] ++ c :: replaceAllEmptyPattern tmpl rest

/-- `Regex::new(pat)` followed by `replace_all(s, tmpl)`, for the pattern strings
this program builds (`format_exec_regex_pattern` / `format_name_regex_pattern`
only ever return the two literal patterns below or the empty string). -/
def regexReplaceAll (pat tmpl : String) (s : List Char) : List Char :=
  if pat = "(Exec=\\s?)(.*)" then replaceAllKey "Exec=".toList tmpl.toList s
  else if pat = "(Name=\\s?)(.*)" then replaceAllKey "Name=".toList tmpl.toList s
  else if pat = "" then replaceAllEmptyPattern tmpl.toList s
  else s

/-- The Descriptor Rewriter of src/server.rs lines 136-147 (identical in
src/client.rs lines 52-63): the exec-pattern pass followed by the name-pattern
pass, each over the whole file text. -/
def rewriteChars (t : ContainerType) (container_name : String) (s : List Char) : List Char :=
  regexReplaceAll (t.format_name_regex_pattern) (t.format_desktop_name container_name)
    (regexReplaceAll (t.format_exec_regex_pattern) (t.format_desktop_exec container_name) s)

/-- String-level wrapper of the Descriptor Rewriter. -/
def rewriteText (t : ContainerType) (container_name : String) (s : String) : String :=
  String.mk (rewriteChars t container_name s.toList)

/-- Split a file name at its last dot: `some (before, after)`. -/
def lastDotSplit : List Char → Option (List Char × List Char)
  | [] => none
  | c :: cs =>
    match lastDotSplit cs with
    | some (b, a) => some (c :: b, a)
    | none => if c = '.' then some ([], cs) else none

/-- Rust `Path::file_stem` on a file name: the part before the last dot, except
that a dot in leading position belongs to the stem. -/
def fileStem (s : List Char) : List Char :=
  match lastDotSplit s with
  | some (b, _) => if b = [] then s else b
  | none => s

/-- Rust `Path::extension` on a file name: the part after the last dot, none if
there is no dot or the only dot is leading. -/
def fileExtension (s : List Char) : Option (List Char) :=
  match lastDotSplit s with
  | some (b, a) => if b = [] then none else some a
  | none => none

/-- `file_stem` of a path given by its components. -/
def pathStem (p : List String) : Option (List Char) :=
  match p.getLast? with
  | some s => some (fileStem s.toList)
  | none => none

/-- `extension` of a path given by its components. -/
def pathExt (p : List String) : Option (List Char) :=
  match p.getLast? with
  | some s => fileExtension s.toList
  | none => none

/-- The candidate filter of `lookup_icon`:
`d.path().file_stem().is_some_and(|stem| stem == name)`. -/
def stemMatches (name : String) (p : List String) : Bool :=
  match pathStem p with
  | some st => decide (st = name.toList)
  | none => false

/-- The largest `u32`, the score of every vector asset. -/
def u32Max : Nat := 4294967295

/-- `split_once("x")` keeping only the part before the first `x`. -/
def splitOnceX : List Char → Option (List Char)
  | [] => none
  | c :: cs =>
    if c = 'x' then some []
    else match splitOnceX cs with
      | some a => some (c :: a)
      | none => none

/-- Accumulating decimal parse over digit characters. -/
def digitsToNatGo (acc : Nat) : List Char → Option Nat
  | [] => some acc
  | c :: cs => if c.isDigit then digitsToNatGo (acc * 10 + (c.toNat - 48)) cs else none

/-- Decimal parse of a non-empty all-digit string. -/
def digitsToNat : List Char → Option Nat
  | [] => none
  | c :: cs => digitsToNatGo 0 (c :: cs)

/-- Strip one leading plus sign, as `u32::from_str` accepts. -/
def stripPlus : List Char → List Char
  | '+' :: r => r
  | s => s

/-- Rust `str::parse::<u32>`: optional leading plus, non-empty digit run, value
must fit in a `u32`. -/
def parseU32 (s : List Char) : Option Nat :=
  match digitsToNat (stripPlus s) with
  | some v => if v ≤ u32Max then some v else none
  | none => none

/-- `entry.path().parent().parent().file_name()`: the third-from-last component.
(On the degenerate short paths where the Rust code would `unwrap` a missing file
name, this is `none`.) -/
def grandparentName (p : List String) : Option String := (p.dropLast.dropLast).getLast?

/-- Score of a raster candidate, src/server.rs lines 251-264: the integer parsed
from before the first `x` of the grandparent directory name, else `u32::MIN`. -/
def pngScore (p : List String) : Nat :=
  match grandparentName p with
  | some g =>
    (match splitOnceX g.toList with
     | some a =>
       (match parseU32 a with
        | some n => n
        | none => 0)
     | none => 0)
  | none => 0

/-- The `max_by_key` scoring closure of `lookup_icon`: svg scores `u32::MAX`,
png scores `pngScore`, anything else (including entries without an extension)
scores `u32::MIN`. -/
def score (p : List String) : Nat :=
  match pathExt p with
  | some e => if e = "svg".toList then u32Max else if e = "png".toList then pngScore p else 0
  | none => 0

/-- One step of Rust `Iterator::max_by_key`: on a tie the NEW element wins, so
the overall maximum is the last maximal element. -/
def maxStep {α : Type _} (f : α → Nat) (acc : Option α) (x : α) : Option α :=
  match acc with
  | none => some x
  | some m => if f m ≤ f x then some x else some m

/-- Rust `Iterator::max_by_key` (returns the last maximal element on ties). -/
def maxByKeyLast {α : Type _} (f : α → Nat) (l : List α) : Option α := l.foldl (maxStep f) none

/-- src/server.rs `lookup_icon`: filter the icon-tree walk by file stem, take the
maximum by `score` (last max wins), else fall back to the first stem match of the
pixmap walk. -/
def lookup_icon (name : String) (base_path pixmap_path : List (List String)) : Option (List String) :=
  match maxByKeyLast score (base_path.filter (stemMatches name)) with
  | some p => some p
  | none => pixmap_path.find? (stemMatches name)

/-- The decoded fields of a `DesktopEntry` that the registrar inspects. -/
structure DesktopEntryR where
  appid : String
  no_display : Bool
  icon : Option String

/-- Externally visible calls issued by the registrar, in program order. -/
inductive Event where
  | remove_session_owner (owner : String)
  | create_dir (path : String)
  | remove_dir_all (path : String)
  | shell (command : String)
  | new_session_entry (appid : String) (text : String) (owner : String)
  | new_session_icon (icon_name : String) (owner : String)
  | register_entry (appid : String) (text : String)
  | register_icon (icon_name : String)
deriving DecidableEq

/-- Whether an event is a deletion of a workspace subtree. -/
def Event.isRemoveDirAll : Event → Bool
  | .remove_dir_all _ => true
  | _ => false

/-- Whether an event is a registration push to the daemon. -/
def isRegisterCall : Event → Bool
  | .new_session_entry _ _ _ => true
  | .new_session_icon _ _ => true
  | .register_entry _ _ => true
  | .register_icon _ => true
  | _ => false

/-- What the external collaborators return during one container's pass: the
captured `XDG_DATA_DIRS` output, whether the session-bus connection and proxy
creation at the publishing step succeed, the harvested application files
(file name and raw text), and the walk listings of the workspace's icons/ and
pixmaps/ subtrees. -/
structure ContainerEnv where
  dataDirsRaw : String
  connOk : Bool
  appFiles : List (String × String)
  iconWalk : List (List String)
  pixmapWalk : List (List String)

/-- One configured container: name, runtime kind, and its environment. -/
structure ContainerSpec where
  cname : String
  ctype : ContainerType
  env : ContainerEnv

/-- Rust `Path::join` (no separator duplication). -/
def joinPath (a b : String) : String :=
  if a = "" then b else if a.toList.getLast? = some '/' then a ++ b else a ++ "/" ++ b

/-- Rust `str::trim` (ASCII white space suffices for the modelled inputs). -/
def trimChars (l : List Char) : List Char :=
  ((l.dropWhile Char.isWhitespace).reverse.dropWhile Char.isWhitespace).reverse

/-- Rust `str::split(":")`: the empty string yields one empty piece. -/
def splitColon (l : List Char) : List (List Char) :=
  l.foldr (fun c acc =>
    match acc with
    | h :: t => if c = ':' then [] :: h :: t else (c :: h) :: t
    | [] => [[c]]) [[]]

/-- Processing of one harvested descriptor file, src/server.rs lines 126-222:
rewrite, decode, drop `NoDisplay` entries, push the entry, then resolve and (for
a png/svg result) push its icon. -/
def process_desktop_file (decode : String → String → Option DesktopEntryR)
    (owner container_name : String) (ct : ContainerType) (env : ContainerEnv)
    (file : String × String) : List Event :=
  match decode file.1 (rewriteText ct container_name file.2) with
  | none => []
  | some entry =>
    if entry.no_display then []
    else
      Event.new_session_entry entry.appid (rewriteText ct container_name file.2) owner ::
        (match entry.icon with
         | none => []
         | some icon_name =>
           match lookup_icon icon_name env.iconWalk env.pixmapWalk with
           | none => []
           | some icon_path =>
             match pathExt icon_path with
             | some e =>
               if e = "png".toList ∨ e = "svg".toList then
                 [Event.new_session_icon icon_name owner]
               else []
             | none => [])

/-- The harvest stage of `set_up_client`, src/server.rs lines 84-118: start the
container, create the workspace subtrees, query the data dirs, copy each data
dir's applications/ and icons/ out, then the fixed pixmap path. -/
def harvest_events (container_name : String) (ct : ContainerType) (to_path : String)
    (env : ContainerEnv) : List Event :=
  Event.shell (ct.format_start container_name) ::
  Event.create_dir (joinPath to_path "applications") ::
  Event.create_dir (joinPath to_path "icons") ::
  Event.create_dir (joinPath to_path "pixmaps") ::
  Event.shell (ct.format_exec container_name "env | grep XDG_DATA_DIRS | cut -d\x27=\x27 -f2") ::
  (((splitColon (trimChars env.dataDirsRaw.toList)).map (fun d =>
      [Event.shell (ct.format_copy container_name (joinPath (String.mk d) "applications")
          (joinPath to_path "applications")),
       Event.shell (ct.format_copy container_name (joinPath (String.mk d) "icons")
          (joinPath to_path "icons"))])).flatten
    ++ [Event.shell (ct.format_copy container_name "/usr/share/pixmaps"
          (joinPath to_path "pixmaps"))])

/-- src/server.rs `set_up_client` as the trace of calls it issues, paired with
whether it returns `Ok`.  If the session-bus connection or proxy creation fails
(`connOk = false`) the function returns the error immediately after harvesting:
the per-file loop does not run and, in particular, the three `remove_dir_all`
cleanup calls at lines 223-225 are never issued.  All per-file errors inside the
loop are logged and skipped, so a successful connection always reaches the
cleanup calls. -/
def set_up_client (decode : String → String → Option DesktopEntryR)
    (container_name : String) (ct : ContainerType) (to_path owner : String)
    (env : ContainerEnv) : List Event × Bool :=
  if env.connOk then
    (harvest_events container_name ct to_path env
       ++ (env.appFiles.map (process_desktop_file decode owner container_name ct env)).flatten
       ++ [Event.remove_dir_all (joinPath to_path "applications"),
           Event.remove_dir_all (joinPath to_path "icons"),
           Event.remove_dir_all (joinPath to_path "pixmaps")], true)
  else (harvest_events container_name ct to_path env, false)

/-- src/server.rs `server`: retract the ownership key first (line 59), then run
one pass per configured container, skipping unsupported runtime kinds (lines
62-69); a failing pass is logged and the next container proceeds. -/
def server (decode : String → String → Option DesktopEntryR) (to_path owner : String)
    (containers : List ContainerSpec) : List Event :=
  Event.remove_session_owner owner ::
    (containers.map (fun c =>
      if c.ctype.not_supported then []
      else (set_up_client decode c.cname c.ctype to_path owner c.env).1)).flatten

/-- Processing of one desktop file in src/client.rs lines 50-102: the same
rewrite/decode/`NoDisplay` pipeline, pushing via `register_entry` and looking
icons up through the freedesktop cache (a parameter here). -/
def client_process_file (decode : String → String → Option DesktopEntryR)
    (cacheLookup : String → Option (List String)) (container_name : String)
    (ct : ContainerType) (file : String × String) : List Event :=
  match decode file.1 (rewriteText ct container_name file.2) with
  | none => []
  | some entry =>
    if entry.no_display then []
    else
      Event.register_entry entry.appid (rewriteText ct container_name file.2) ::
        (match entry.icon with
         | none => []
         | some icon_name =>
           match cacheLookup icon_name with
           | none => []
           | some icon_path =>
             match pathExt icon_path with
             | some e =>
               if e = "png".toList ∨ e = "svg".toList then [Event.register_icon icon_name]
               else []
             | none => [])

/-- Modelled from the spec: the daemon's registration store, which is not part of
this repository's src.  Per ownership key it holds the registered entries
(app id and text) and icon names. -/
structure RegistryState where
  entries : String → List (String × String)
  icons : String → List String

/-- Modelled from the spec: the daemon-side `retract_owner` operation
(`remove_session_owner` over the IPC protocol) clears everything attributed to
one ownership key and touches no other key. -/
def retract_owner (st : RegistryState) (owner : String) : RegistryState :=
  RegistryState.mk (fun o => if o = owner then [] else st.entries o)
    (fun o => if o = owner then [] else st.icons o)

/-- The empty-pattern pass with an empty template is the identity. -/
lemma replaceAllEmptyPattern_nil : ∀ s : List Char, replaceAllEmptyPattern [] s = s := by
  intro s
  induction s with
  | nil => rfl
  | cons c cs ih => simp [replaceAllEmptyPattern, expandTemplate, expandTGo, ih]

/-- The empty template expands to nothing. -/
lemma expandTemplate_nil (g1 g2 : List Char) : expandTemplate [] g1 g2 = [] := rfl

/-- If the key does not occur in the text there is no leftmost occurrence. -/
lemma splitOnKey_eq_none (key : List Char) (hk : key ≠ []) :
    ∀ s : List Char, ¬ (key <:+: s) → splitOnKey key s = none := by
  intro s
  induction s with
  | nil => intro _; simp [splitOnKey, hk]
  | cons c cs ih =>
    intro h
    have hpre : ¬ key.isPrefixOf (c :: cs) = true := by
      intro hp
      exact h (List.isPrefixOf_iff_prefix.mp hp).isInfix
    have hcs : ¬ (key <:+: cs) := fun hi => h (List.infix_cons hi)
    simp [splitOnKey, hpre, ih hcs]

/-- A pass whose key finds no occurrence leaves the text unchanged. -/
lemma replaceAllKeyGo_of_none (key tmpl : List Char) (fuel : Nat) (s : List Char)
    (h : splitOnKey key s = none) : replaceAllKeyGo key tmpl fuel s = s := by
  cases fuel with
  | zero => rfl
  | succ f => simp [replaceAllKeyGo, h]

/-- A pass whose key does not occur in the text is the identity. -/
lemma replaceAllKey_of_not_infix (key tmpl : List Char) (hk : key ≠ []) (s : List Char)
    (h : ¬ (key <:+: s)) : replaceAllKey key tmpl s = s :=
  replaceAllKeyGo_of_none key tmpl _ s (splitOnKey_eq_none key hk s h)

/-- The exec pass is the identity on texts without an occurrence of the key. -/
lemma execPass_id (tmpl : String) (s : List Char) (h : ¬ ("Exec=".toList <:+: s)) :
    regexReplaceAll "(Exec=\\s?)(.*)" tmpl s = s := by
  unfold regexReplaceAll
  rw [if_pos rfl]
  exact replaceAllKey_of_not_infix _ _ (by decide) s h

/-- The name pass is the identity on texts without an occurrence of the key. -/
lemma namePass_id (tmpl : String) (s : List Char) (h : ¬ ("Name=".toList <:+: s)) :
    regexReplaceAll "(Name=\\s?)(.*)" tmpl s = s := by
  unfold regexReplaceAll
  rw [if_neg (by decide), if_pos rfl]
  exact replaceAllKey_of_not_infix _ _ (by decide) s h

/-- The empty-pattern pass with the empty template is the identity. -/
lemma emptyPass_id (s : List Char) : regexReplaceAll "" "" s = s := by
  unfold regexReplaceAll
  rw [if_neg (by decide), if_neg (by decide), if_pos rfl]
  exact replaceAllEmptyPattern_nil s

/-- On a text that mentions neither `Exec=` nor `Name=` the whole rewriter is the
identity, for every runtime kind. -/
lemma rewriteChars_eq_self (t : ContainerType) (container_name : String) (s : List Char)
    (hE : ¬ ("Exec=".toList <:+: s)) (hN : ¬ ("Name=".toList <:+: s)) :
    rewriteChars t container_name s = s := by
  cases t <;>
    simp only [rewriteChars, ContainerType.format_exec_regex_pattern,
      ContainerType.format_name_regex_pattern, ContainerType.format_desktop_exec,
      ContainerType.format_desktop_name] <;>
    first
      | rw [execPass_id _ s hE, namePass_id _ s hN]
      | rw [emptyPass_id, emptyPass_id]

/-- A key occurring right at the front is the leftmost occurrence. -/
lemma splitOnKey_append_self (key : List Char) (hk : key ≠ []) (v : List Char) :
    splitOnKey key (key ++ v) = some ([], v) := by
  cases key with
  | nil => exact absurd rfl hk
  | cons k ks =>
    have hpre : (k :: ks).isPrefixOf ((k :: ks) ++ v) = true :=
      List.isPrefixOf_iff_prefix.mpr (List.prefix_append _ v)
    show splitOnKey (k :: ks) (k :: (ks ++ v)) = some ([], v)
    simp only [splitOnKey]
    rw [show k :: (ks ++ v) = (k :: ks) ++ v from rfl, if_pos hpre, List.drop_left]

/-- A keyed pass on the empty text does nothing, whatever the fuel. -/
lemma replaceAllKeyGo_nil_input (key tmpl : List Char) (hk : key ≠ []) :
    ∀ fuel : Nat, replaceAllKeyGo key tmpl fuel [] = [] := by
  intro fuel
  cases fuel with
  | zero => rfl
  | succ f => simp [replaceAllKeyGo, splitOnKey, hk]

/-- A keyed pass with an EMPTY replacement template erases a text that consists
of the key followed by a single line: every character of the match is consumed
and replaced by nothing. -/
lemma replaceAllKey_empty_tmpl (key : List Char) (hk : key ≠ []) (v : List Char)
    (h : Char.ofNat 10 ∉ v) : replaceAllKey key [] (key ++ v) = [] := by
  have hnl : ∀ c ∈ v, notNl c = true := by
    intro c hc
    have : c ≠ Char.ofNat 10 := fun he => h (he ▸ hc)
    simp [notNl, this]
  have hdrop : ∀ w : List Char, (∀ c ∈ w, notNl c = true) → w.dropWhile notNl = [] := by
    intro w hw
    rw [List.dropWhile_eq_nil_iff]
    intro x hx
    exact hw x hx
  unfold replaceAllKey
  simp only [replaceAllKeyGo, splitOnKey_append_self key hk v]
  cases v with
  | nil =>
    simp [expandTemplate_nil, replaceAllKeyGo_nil_input key [] hk]
  | cons c rest =>
    have hrest : ∀ x ∈ rest, notNl x = true := fun x hx => hnl x (List.mem_cons_of_mem c hx)
    by_cases hws : isWs c = true
    · simp only [hws, if_true, expandTemplate_nil, hdrop rest hrest,
        replaceAllKeyGo_nil_input key [] hk, List.append_nil, List.nil_append]
    · simp only [hws, if_false, Bool.false_eq_true, expandTemplate_nil,
        hdrop (c :: rest) (hnl), replaceAllKeyGo_nil_input key [] hk,
        List.append_nil, List.nil_append]

/-- Claim C3 (counterexample): the Descriptor Rewriter is NOT idempotent.  For
the Toolbox kind with container name `c`, one application rewrites `Exec=a` to
the wrapped launch command, and a second application wraps the already-rewritten
value again, because the exec pattern still matches the rewritten line. -/
theorem claim_C3_counterexample :
    rewriteText ContainerType.Toolbox "c" "Exec=a" = "Exec=toolbox run -c c a" ∧
    rewriteText ContainerType.Toolbox "c" (rewriteText ContainerType.Toolbox "c" "Exec=a") =
      "Exec=toolbox run -c c toolbox run -c c a" ∧
    rewriteText ContainerType.Toolbox "c" (rewriteText ContainerType.Toolbox "c" "Exec=a") ≠
      rewriteText ContainerType.Toolbox "c" "Exec=a" := by
  refine ⟨by decide, by decide, by decide⟩

/-- Claim C3 (amended): for every runtime kind and container name, applying the
Descriptor Rewriter twice agrees with applying it once on every original text
in which neither the exec key `Exec=` nor the name key `Name=` occurs (on such
texts the rewriter is the identity).  This is a sufficient condition, not a
characterisation: idempotence does fail on matching texts for kinds with
non-empty templates — for Toolbox the second application wraps the template
around the already-rewritten value, as the counterexample shows — while for a
kind with an empty template (Docker's exec pass) a matching line is deleted by
the first application and the second is then the identity. -/
theorem claim_C3 (t : ContainerType) (container_name : String) (s : List Char)
    (hE : ¬ ("Exec=".toList <:+: s)) (hN : ¬ ("Name=".toList <:+: s)) :
    rewriteChars t container_name (rewriteChars t container_name s) =
      rewriteChars t container_name s := by
  have h := rewriteChars_eq_self t container_name s hE hN
  rw [h]
  exact h

/-- Witness for C3 at a concrete input. -/
theorem claim_C3_witness :
    rewriteChars ContainerType.Toolbox "c"
        (rewriteChars ContainerType.Toolbox "c" "Type=Application".toList) =
      rewriteChars ContainerType.Toolbox "c" "Type=Application".toList :=
  claim_C3 ContainerType.Toolbox "c" "Type=Application".toList (by decide) (by decide)

/-- Claim C4 (counterexample): the Docker kind has an empty exec-launch template
but a non-empty exec pattern; its exec rewrite pass does not pass the matching
line through unchanged, it deletes the line's content. -/
theorem claim_C4_counterexample :
    ContainerType.Docker.format_desktop_exec "c" = "" ∧
    regexReplaceAll (ContainerType.Docker.format_exec_regex_pattern)
      (ContainerType.Docker.format_desktop_exec "c") "Exec=a".toList = [] ∧
    "Exec=a".toList ≠ ([] : List Char) := by
  refine ⟨by decide, by decide, by decide⟩

/-- Claim C4 (amended): a rewrite pass is a no-op passthrough exactly when the
runtime kind's regex PATTERN is empty (the Unknown kind, whose templates are
also empty): for Unknown both passes leave any text unchanged.  When the
replacement template is empty but the pattern is not (Docker's exec pass;
Docker's and Podman's name pass), each matching line's matched text is replaced
by the empty string, i.e. the line content is deleted, not passed through. -/
theorem claim_C4 :
    (∀ (container_name : String) (s : List Char),
        rewriteChars ContainerType.Unknown container_name s = s) ∧
    (∀ (t : ContainerType) (container_name : String) (v : List Char),
        t.format_exec_regex_pattern = "(Exec=\\s?)(.*)" →
        t.format_desktop_exec container_name = "" →
        Char.ofNat 10 ∉ v →
        regexReplaceAll (t.format_exec_regex_pattern) (t.format_desktop_exec container_name)
          ("Exec=".toList ++ v) = []) ∧
    (∀ (t : ContainerType) (container_name : String) (v : List Char),
        t.format_name_regex_pattern = "(Name=\\s?)(.*)" →
        t.format_desktop_name container_name = "" →
        Char.ofNat 10 ∉ v →
        regexReplaceAll (t.format_name_regex_pattern) (t.format_desktop_name container_name)
          ("Name=".toList ++ v) = []) := by
  refine ⟨?_, ?_, ?_⟩
  · intro container_name s
    simp only [rewriteChars, ContainerType.format_exec_regex_pattern,
      ContainerType.format_name_regex_pattern, ContainerType.format_desktop_exec,
      ContainerType.format_desktop_name]
    rw [emptyPass_id, emptyPass_id]
  · intro t container_name v hp ht hnl
    rw [hp, ht]
    unfold regexReplaceAll
    rw [if_pos rfl]
    exact replaceAllKey_empty_tmpl "Exec=".toList (by decide) v hnl
  · intro t container_name v hp ht hnl
    rw [hp, ht]
    unfold regexReplaceAll
    rw [if_neg (by decide), if_pos rfl]
    exact replaceAllKey_empty_tmpl "Name=".toList (by decide) v hnl

/-- Witness for C4 at a concrete input. -/
theorem claim_C4_witness :
    regexReplaceAll (ContainerType.Docker.format_exec_regex_pattern)
      (ContainerType.Docker.format_desktop_exec "c") ("Exec=".toList ++ "a".toList) = [] :=
  claim_C4.2.1 ContainerType.Docker "c" "a".toList rfl rfl (by decide)

/-- Folding `maxStep` over elements that all score strictly below the
accumulator keeps the accumulator. -/
lemma foldl_maxStep_lt {α : Type _} (f : α → Nat) (m : α) :
    ∀ l : List α, (∀ x ∈ l, f x < f m) → l.foldl (maxStep f) (some m) = some m := by
  intro l
  induction l with
  | nil => intro _; rfl
  | cons x xs ih =>
    intro h
    have hx : f x < f m := h x (List.mem_cons_self x xs)
    have hstep : maxStep f (some m) x = some m := by
      simp [maxStep, Nat.not_le.mpr hx]
    rw [List.foldl_cons, hstep]
    exact ih (fun y hy => h y (List.mem_cons_of_mem x hy))

/-- Folding `maxStep` from `some m` yields an element of the list or `m` itself,
never smaller than `m` and at least as large as every list element. -/
lemma foldl_maxStep_mem {α : Type _} (f : α → Nat) :
    ∀ (l : List α) (m : α), ∃ r, l.foldl (maxStep f) (some m) = some r ∧
      (r = m ∨ r ∈ l) ∧ f m ≤ f r ∧ ∀ x ∈ l, f x ≤ f r := by
  intro l
  induction l with
  | nil => intro m; exact ⟨m, rfl, Or.inl rfl, Nat.le_refl _, by intro x hx; cases hx⟩
  | cons x xs ih =>
    intro m
    by_cases hle : f m ≤ f x
    · obtain ⟨r, hr, hmem, hfx, hall⟩ := ih x
      refine ⟨r, ?_, ?_, Nat.le_trans hle hfx, ?_⟩
      · rw [List.foldl_cons, show maxStep f (some m) x = some x by simp [maxStep, hle]]
        exact hr
      · rcases hmem with h | h
        · exact Or.inr (h ▸ List.mem_cons_self x xs)
        · exact Or.inr (List.mem_cons_of_mem x h)
      · intro y hy
        rcases List.mem_cons.mp hy with h | h
        · exact h ▸ hfx
        · exact hall y h
    · obtain ⟨r, hr, hmem, hfm, hall⟩ := ih m
      refine ⟨r, ?_, ?_, hfm, ?_⟩
      · rw [List.foldl_cons, show maxStep f (some m) x = some m by simp [maxStep, hle]]
        exact hr
      · rcases hmem with h | h
        · exact Or.inl h
        · exact Or.inr (List.mem_cons_of_mem x h)
      · intro y hy
        rcases List.mem_cons.mp hy with h | h
        · exact h ▸ Nat.le_trans (Nat.le_of_lt (Nat.not_le.mp hle)) hfm
        · exact hall y h

/-- `maxByKeyLast` of a non-empty list returns a maximal element of the list. -/
lemma maxByKeyLast_spec {α : Type _} (f : α → Nat) (l : List α) (hne : l ≠ []) :
    ∃ r, maxByKeyLast f l = some r ∧ r ∈ l ∧ ∀ x ∈ l, f x ≤ f r := by
  cases l with
  | nil => exact absurd rfl hne
  | cons c cs =>
    obtain ⟨r, hr, hmem, hfc, hall⟩ := foldl_maxStep_mem f cs c
    refine ⟨r, ?_, ?_, ?_⟩
    · rw [maxByKeyLast, List.foldl_cons]
      exact hr
    · rcases hmem with h | h
      · exact h ▸ List.mem_cons_self c cs
      · exact List.mem_cons_of_mem c h
    · intro x hx
      rcases List.mem_cons.mp hx with h | h
      · exact h ▸ hfc
      · exact hall x h

/-- Folding `maxStep` from `none` yields `none` or some element of the list. -/
lemma foldl_maxStep_none_cases {α : Type _} (f : α → Nat) :
    ∀ l : List α, l.foldl (maxStep f) none = none ∨
      ∃ y ∈ l, l.foldl (maxStep f) none = some y := by
  intro l
  cases l with
  | nil => exact Or.inl rfl
  | cons c cs =>
    obtain ⟨r, hr, hmem, _, _⟩ := foldl_maxStep_mem f cs c
    refine Or.inr ⟨r, ?_, ?_⟩
    · rcases hmem with h | h
      · exact h ▸ List.mem_cons_self c cs
      · exact List.mem_cons_of_mem c h
    · rw [List.foldl_cons]
      exact hr

/-- Rust `max_by_key` returns the LAST maximal element: if everything before `r`
scores no more than `r` and everything after `r` scores strictly less, the fold
returns `r`. -/
lemma maxByKeyLast_last {α : Type _} (f : α → Nat) (l1 l2 : List α) (r : α)
    (h1 : ∀ x ∈ l1, f x ≤ f r) (h2 : ∀ x ∈ l2, f x < f r) :
    maxByKeyLast f (l1 ++ r :: l2) = some r := by
  rw [maxByKeyLast, List.foldl_append, List.foldl_cons]
  have hstep : maxStep f (l1.foldl (maxStep f) none) r = some r := by
    rcases foldl_maxStep_none_cases f l1 with h | ⟨y, hy, h⟩
    · rw [h]; rfl
    · rw [h]; simp [maxStep, h1 y hy]
  rw [hstep]
  exact foldl_maxStep_lt f r l2 h2

/-- A successful `u32` parse is bounded by `u32::MAX`. -/
lemma parseU32_le (a : List Char) (n : Nat) (h : parseU32 a = some n) : n ≤ u32Max := by
  unfold parseU32 at h
  split at h
  · split at h
    · cases h
      assumption
    · cases h
  · cases h

/-- The raster score is bounded by `u32::MAX`. -/
lemma pngScore_le (p : List String) : pngScore p ≤ u32Max := by
  unfold pngScore
  split
  · split
    · split
      · exact parseU32_le _ _ (by assumption)
      · exact Nat.zero_le _
    · exact Nat.zero_le _
  · exact Nat.zero_le _

/-- Every candidate scores at most `u32::MAX`. -/
lemma score_le (p : List String) : score p ≤ u32Max := by
  unfold score
  split
  · split
    · exact Nat.le_refl _
    · split
      · exact pngScore_le p
      · exact Nat.zero_le _
  · exact Nat.zero_le _

/-- A vector candidate scores exactly `u32::MAX`. -/
lemma score_svg (p : List String) (h : pathExt p = some "svg".toList) : score p = u32Max := by
  simp [score, h]

/-- Claim C5 (counterexample): a vector candidate does not always win.  A raster
candidate whose grandparent directory is named `4294967295x4294967295` parses to
`u32::MAX`, ties with the svg score, and — appearing later in the walk — is
returned by the last-max tie-break instead of the vector asset. -/
theorem claim_C5_counterexample :
    stemMatches "i" ["icons", "scalable", "apps", "i.svg"] = true ∧
    stemMatches "i" ["icons", "4294967295x4294967295", "apps", "i.png"] = true ∧
    pathExt ["icons", "scalable", "apps", "i.svg"] = some "svg".toList ∧
    pathExt ["icons", "4294967295x4294967295", "apps", "i.png"] = some "png".toList ∧
    score ["icons", "scalable", "apps", "i.svg"] =
      score ["icons", "4294967295x4294967295", "apps", "i.png"] ∧
    lookup_icon "i"
      [["icons", "scalable", "apps", "i.svg"],
       ["icons", "4294967295x4294967295", "apps", "i.png"]] [] =
      some ["icons", "4294967295x4294967295", "apps", "i.png"] := by
  refine ⟨by decide, by decide, by decide, by decide, by decide, by decide⟩

/-- Claim C5 (amended): if the icon tree contains a vector (svg) candidate for
the name, and every candidate is either a vector or scores strictly below
`u32::MAX` (in particular no raster sits under a grandparent directory whose
size segment parses to 4294967295), then resolution returns a vector
candidate. -/
theorem claim_C5 (name : String) (iconWalk pixmapWalk : List (List String)) (v : List String)
    (hv : v ∈ iconWalk.filter (stemMatches name))
    (hext : pathExt v = some "svg".toList)
    (hall : ∀ c ∈ iconWalk.filter (stemMatches name),
      pathExt c = some "svg".toList ∨ score c < u32Max) :
    ∃ r, lookup_icon name iconWalk pixmapWalk = some r ∧ pathExt r = some "svg".toList := by
  have hne : iconWalk.filter (stemMatches name) ≠ [] := fun he => by rw [he] at hv; cases hv
  obtain ⟨r, hr, hrmem, hmax⟩ := maxByKeyLast_spec score _ hne
  have hrscore : score r = u32Max := by
    have h1 : u32Max ≤ score r := score_svg v hext ▸ hmax v hv
    exact Nat.le_antisymm (score_le r) h1
  refine ⟨r, ?_, ?_⟩
  · rw [lookup_icon, hr]
  · rcases hall r hrmem with h | h
    · exact h
    · rw [hrscore] at h
      exact absurd h (Nat.lt_irrefl _)

/-- Witness for C5 at a concrete input. -/
theorem claim_C5_witness :
    ∃ r, lookup_icon "i" [["icons", "scalable", "apps", "i.svg"]] [] = some r ∧
      pathExt r = some "svg".toList :=
  claim_C5 "i" [["icons", "scalable", "apps", "i.svg"]] []
    ["icons", "scalable", "apps", "i.svg"] (by decide) (by decide) (by decide)

/-- Claim C6: a png candidate scores the integer parsed from before the first
`x` of its grandparent directory name, and scores the minimum (0) when the
grandparent is missing, has no `x` segment, or the segment does not parse; for
an icon present only as rasters under `48x48` and `96x96` directories the
`96x96` asset is returned, in either walk order. -/
theorem claim_C6 :
    (∀ (p : List String) (g : String) (a : List Char) (n : Nat),
        pathExt p = some "png".toList → grandparentName p = some g →
        splitOnceX g.toList = some a → parseU32 a = some n → score p = n) ∧
    (∀ p : List String, pathExt p = some "png".toList → grandparentName p = none →
        score p = 0) ∧
    (∀ (p : List String) (g : String), pathExt p = some "png".toList →
        grandparentName p = some g → splitOnceX g.toList = none → score p = 0) ∧
    (∀ (p : List String) (g : String) (a : List Char), pathExt p = some "png".toList →
        grandparentName p = some g → splitOnceX g.toList = some a → parseU32 a = none →
        score p = 0) ∧
    lookup_icon "i" [["icons", "48x48", "apps", "i.png"], ["icons", "96x96", "apps", "i.png"]]
        [] = some ["icons", "96x96", "apps", "i.png"] ∧
    lookup_icon "i" [["icons", "96x96", "apps", "i.png"], ["icons", "48x48", "apps", "i.png"]]
        [] = some ["icons", "96x96", "apps", "i.png"] := by
  refine ⟨?_, ?_, ?_, ?_, by decide, by decide⟩
  · intro p g a n h1 h2 h3 h4
    simp only [String.toList] at h3 h4
    simp [score, pngScore, h1, h2, h3, h4]
  · intro p h1 h2
    simp [score, pngScore, h1, h2]
  · intro p g h1 h2 h3
    simp only [String.toList] at h3
    simp [score, pngScore, h1, h2, h3]
  · intro p g a h1 h2 h3 h4
    simp only [String.toList] at h3 h4
    simp [score, pngScore, h1, h2, h3, h4]

/-- Witness for C6 at a concrete input. -/
theorem claim_C6_witness : score ["icons", "48x48", "apps", "i.png"] = 48 :=
  claim_C6.1 ["icons", "48x48", "apps", "i.png"] "48x48" "48".toList 48
    (by decide) rfl (by decide) (by decide)

/-- Claim C7 (counterexample): ties are NOT broken in favour of the first
candidate encountered.  Two raster candidates with the same stem and equal
scores (both under a `48x48` grandparent) are filtered in walk order, yet
resolution returns the SECOND one, because Rust's `max_by_key` keeps the last
maximal element. -/
theorem claim_C7_counterexample :
    ([["icons", "48x48", "apps", "i.png"], ["icons", "48x48", "aps2", "i.png"]].filter
        (stemMatches "i") =
      [["icons", "48x48", "apps", "i.png"], ["icons", "48x48", "aps2", "i.png"]]) ∧
    score ["icons", "48x48", "apps", "i.png"] = score ["icons", "48x48", "aps2", "i.png"] ∧
    (["icons", "48x48", "apps", "i.png"] : List String) ≠
      ["icons", "48x48", "aps2", "i.png"] ∧
    lookup_icon "i" [["icons", "48x48", "apps", "i.png"], ["icons", "48x48", "aps2", "i.png"]]
        [] = some ["icons", "48x48", "aps2", "i.png"] := by
  refine ⟨by decide, by decide, by decide, by decide⟩

/-- Claim C7 (amended): when several candidates share the maximal score, icon
resolution returns the LAST maximal-scoring candidate in the order encountered
during the walk: whenever the filtered candidate list splits as
`l1 ++ r :: l2` with everything in `l1` scoring at most `r` and everything in
`l2` scoring strictly below `r`, the resolver returns `r`. -/
theorem claim_C7 (name : String) (iconWalk pixmapWalk : List (List String))
    (l1 l2 : List (List String)) (r : List String)
    (hf : iconWalk.filter (stemMatches name) = l1 ++ r :: l2)
    (h1 : ∀ x ∈ l1, score x ≤ score r)
    (h2 : ∀ x ∈ l2, score x < score r) :
    lookup_icon name iconWalk pixmapWalk = some r := by
  rw [lookup_icon, hf, maxByKeyLast_last score l1 l2 r h1 h2]

/-- Witness for C7 at a concrete input. -/
theorem claim_C7_witness :
    lookup_icon "i" [["icons", "48x48", "apps", "i.png"], ["icons", "96x96", "apps", "i.png"]]
      [] = some ["icons", "96x96", "apps", "i.png"] :=
  claim_C7 "i" [["icons", "48x48", "apps", "i.png"], ["icons", "96x96", "apps", "i.png"]] []
    [["icons", "48x48", "apps", "i.png"]] [] ["icons", "96x96", "apps", "i.png"]
    (by decide) (by decide) (by decide)

/-- Claim C10: candidates are selected solely by file-stem equality over every
walked entry — the walk yields directories as well as files, and nothing in the
filter distinguishes them.  An entry without an extension (as a directory named
exactly like the icon is) scores the minimum, and when it is the only candidate
it is returned as the resolved path. -/
theorem claim_C10 (name : String) (iconWalk pixmapWalk : List (List String)) (d : List String)
    (hf : iconWalk.filter (stemMatches name) = [d])
    (hext : pathExt d = none) :
    score d = 0 ∧ lookup_icon name iconWalk pixmapWalk = some d := by
  constructor
  · unfold score
    rw [hext]
  · rw [lookup_icon, hf]
    rfl

/-- Witness for C10 at a concrete input: a walked directory entry `icons/myapp`
with no extension is selected for icon name `myapp`. -/
theorem claim_C10_witness :
    score ["icons", "myapp"] = 0 ∧
    lookup_icon "myapp" [["icons"], ["icons", "myapp"]] [] = some ["icons", "myapp"] :=
  claim_C10 "myapp" [["icons"], ["icons", "myapp"]] [] ["icons", "myapp"]
    (by decide) (by decide)

/-- Claim C1: the retraction of the ownership key (`remove_session_owner`,
src/server.rs line 59) is issued before any register-entry or register-icon push
of any pass run by `server`: it is the very first event of the trace, so every
registration call sits at a strictly later position.  And — modelled from the
spec, since the daemon is not part of this repository's src — retracting a key
that holds no prior state is a no-op on the registry. -/
theorem claim_C1 :
    (∀ (decode : String → String → Option DesktopEntryR) (to_path owner : String)
        (cs : List ContainerSpec) (i : Nat) (e : Event),
        (server decode to_path owner cs)[i]? = some e → isRegisterCall e = true →
        (server decode to_path owner cs)[0]? = some (Event.remove_session_owner owner) ∧
          0 < i) ∧
    (∀ (st : RegistryState) (owner : String),
        st.entries owner = [] → st.icons owner = [] → retract_owner st owner = st) := by
  constructor
  · intro decode to_path owner cs i e hi hreg
    have hs : server decode to_path owner cs = Event.remove_session_owner owner ::
        (cs.map (fun c =>
          if c.ctype.not_supported then []
          else (set_up_client decode c.cname c.ctype to_path owner c.env).1)).flatten := rfl
    rw [hs]
    refine ⟨by simp, ?_⟩
    cases i with
    | zero =>
      rw [hs] at hi
      simp at hi
      rw [← hi] at hreg
      simp [isRegisterCall] at hreg
    | succ n => exact Nat.succ_pos n
  · intro st owner he hi
    cases st with
    | mk entries icons =>
      unfold retract_owner
      congr 1
      · funext o
        by_cases h : o = owner
        · subst h
          rw [if_pos rfl]
          exact he.symm
        · rw [if_neg h]
      · funext o
        by_cases h : o = owner
        · subst h
          rw [if_pos rfl]
          exact hi.symm
        · rw [if_neg h]

/-- Witness for C1: a concrete server run whose register-entry event sits at
index 9, after the retraction at index 0; and a concrete empty registry state
fixed by retraction. -/
theorem claim_C1_witness :
    ((server (fun _ _ => some (DesktopEntryR.mk "app" false none)) "/t/" "o"
        [ContainerSpec.mk "box" ContainerType.Toolbox
          (ContainerEnv.mk "" true [("f", "Type=x")] [] [])])[0]? =
      some (Event.remove_session_owner "o") ∧ 0 < 9) ∧
    retract_owner (RegistryState.mk (fun _ => []) (fun _ => [])) "o" =
      RegistryState.mk (fun _ => []) (fun _ => []) :=
  ⟨claim_C1.1 (fun _ _ => some (DesktopEntryR.mk "app" false none)) "/t/" "o"
      [ContainerSpec.mk "box" ContainerType.Toolbox
        (ContainerEnv.mk "" true [("f", "Type=x")] [] [])] 9
      (Event.new_session_entry "app" "Type=x" "o") (by decide) (by decide),
    claim_C1.2 (RegistryState.mk (fun _ => []) (fun _ => [])) "o" rfl rfl⟩

/-- Claim C2: a harvested descriptor file that decodes successfully with its
no-display flag set is discarded before registration: the per-file processing of
both the server pass (src/server.rs lines 150-155) and the client pipeline
(src/client.rs lines 65-69) issues no events at all for it — no entry push and
no icon push. -/
theorem claim_C2 (decode : String → String → Option DesktopEntryR)
    (owner container_name : String) (ct : ContainerType) (env : ContainerEnv)
    (cacheLookup : String → Option (List String)) (file : String × String)
    (entry : DesktopEntryR)
    (hdec : decode file.1 (rewriteText ct container_name file.2) = some entry)
    (hnd : entry.no_display = true) :
    process_desktop_file decode owner container_name ct env file = [] ∧
    client_process_file decode cacheLookup container_name ct file = [] := by
  constructor
  · simp [process_desktop_file, hdec, hnd]
  · simp [client_process_file, hdec, hnd]

/-- Witness for C2 at a concrete no-display descriptor. -/
theorem claim_C2_witness :
    process_desktop_file (fun _ _ => some (DesktopEntryR.mk "app" true none)) "o" "box"
        ContainerType.Toolbox (ContainerEnv.mk "" true [] [] []) ("f", "Exec=a") = [] ∧
    client_process_file (fun _ _ => some (DesktopEntryR.mk "app" true none))
        (fun _ => none) "box" ContainerType.Toolbox ("f", "Exec=a") = [] :=
  claim_C2 (fun _ _ => some (DesktopEntryR.mk "app" true none)) "o" "box"
    ContainerType.Toolbox (ContainerEnv.mk "" true [] [] []) (fun _ => none)
    ("f", "Exec=a") (DesktopEntryR.mk "app" true none) rfl rfl

/-- Claim C8: a container with an unsupported runtime kind is skipped before any
command is attempted (src/server.rs lines 62-69): it contributes no driver
invocation and no registry call to the server trace, and the remaining
containers are processed exactly as if it were absent. -/
theorem claim_C8 (decode : String → String → Option DesktopEntryR) (to_path owner : String)
    (c : ContainerSpec) (cs1 cs2 : List ContainerSpec)
    (h : c.ctype.not_supported = true) :
    server decode to_path owner (cs1 ++ c :: cs2) = server decode to_path owner (cs1 ++ cs2) := by
  simp [server, h]

/-- Witness for C8: a Docker container contributes nothing to the trace. -/
theorem claim_C8_witness :
    server (fun _ _ => none) "/t/" "o"
        ([] ++ ContainerSpec.mk "d" ContainerType.Docker
          (ContainerEnv.mk "" true [] [] []) :: []) =
      server (fun _ _ => none) "/t/" "o" ([] ++ []) :=
  claim_C8 (fun _ _ => none) "/t/" "o"
    (ContainerSpec.mk "d" ContainerType.Docker (ContainerEnv.mk "" true [] [] [])) [] [] rfl

/-- Claim C9 (counterexample): the Transient Workspace is NOT deleted on every
exit path.  When the session-bus connection or proxy creation fails after
harvesting (src/server.rs lines 119-120), `set_up_client` returns the error
immediately: the pass fails, its trace contains the workspace-creation events
but not a single `remove_dir_all`, so the workspace is left on disk. -/
theorem claim_C9_counterexample :
    (set_up_client (fun _ _ => none) "box" ContainerType.Toolbox "/t/" "o"
        (ContainerEnv.mk "" false [] [] [])).2 = false ∧
    ((set_up_client (fun _ _ => none) "box" ContainerType.Toolbox "/t/" "o"
        (ContainerEnv.mk "" false [] [] [])).1.all (fun e => !e.isRemoveDirAll)) = true ∧
    (set_up_client (fun _ _ => none) "box" ContainerType.Toolbox "/t/" "o"
        (ContainerEnv.mk "" false [] [] [])).1 ≠ [] := by
  refine ⟨by decide, by decide, by decide⟩

/-- Claim C9 (amended): the three workspace subtrees (applications/, icons/ and
pixmaps/) are deleted at the end of every pass whose session-bus connection and
proxy creation succeed — including passes with per-file decode, lookup or push
failures, which are handled inside the loop; on the early abort where the
connection or proxy creation fails, the pass terminates without deleting the
workspace (see the counterexample). -/
theorem claim_C9 (decode : String → String → Option DesktopEntryR)
    (container_name : String) (ct : ContainerType) (to_path owner : String)
    (env : ContainerEnv) (h : env.connOk = true) :
    (∃ pre, (set_up_client decode container_name ct to_path owner env).1 =
      pre ++ [Event.remove_dir_all (joinPath to_path "applications"),
              Event.remove_dir_all (joinPath to_path "icons"),
              Event.remove_dir_all (joinPath to_path "pixmaps")]) ∧
    (set_up_client decode container_name ct to_path owner env).2 = true := by
  constructor
  · refine ⟨harvest_events container_name ct to_path env ++
      (env.appFiles.map (process_desktop_file decode owner container_name ct env)).flatten, ?_⟩
    simp [set_up_client, h, List.append_assoc]
  · simp [set_up_client, h]

/-- Witness for C9 at a concrete successful pass. -/
theorem claim_C9_witness :
    (∃ pre, (set_up_client (fun _ _ => none) "box" ContainerType.Toolbox "/t/" "o"
        (ContainerEnv.mk "" true [] [] [])).1 =
      pre ++ [Event.remove_dir_all (joinPath "/t/" "applications"),
              Event.remove_dir_all (joinPath "/t/" "icons"),
              Event.remove_dir_all (joinPath "/t/" "pixmaps")]) ∧
    (set_up_client (fun _ _ => none) "box" ContainerType.Toolbox "/t/" "o"
        (ContainerEnv.mk "" true [] [] [])).2 = true :=
  claim_C9 (fun _ _ => none) "box" ContainerType.Toolbox "/t/" "o"
    (ContainerEnv.mk "" true [] [] []) rfl

end ContainerDesktopEntries
